import Mathlib

/-!
Shallow embedding of the image combiner program (src/main.rs).

Modelling conventions:
* `u32` values and arithmetic are modelled as `Nat` with an explicit
  reduction modulo `2^32` wherever the source multiplies `u32`s
  (release-mode wrap-around semantics);
* `Vec<u8>` pixel buffers are modelled as `List Nat`;
* panics (`set_rgba`'s index panic, `Vec::splice`'s range panic) are
  modelled as `none`; fallible operations return `Except`;
* the external collaborators (the image crate's `resize_exact` and the
  encoder behind `save_buffer_with_format`) are taken as parameters of
  the functions that call them.
-/

/-- The modulus of `u32` arithmetic, `2^32`. -/
def U32_MOD : Nat := 4294967296

/-- The `ImageDataErrors` enum of src/main.rs.  The `io::Error` /
`ImageError` payloads of the read, decode and save variants are not
modelled; `UnableToFormatImage` keeps its `String` path payload. -/
inductive ImageDataErrors where
  | DifferentImageFormats
  | BufferTooSmall
  | UnableToReadImageFromPath
  | UnableToFormatImage (path : String)
  | UnableToDecodeImage
  | UnableToSaveImage
  deriving DecidableEq

/-- A decoded image: a `DynamicImage` viewed as its dimensions together
with its RGBA8 byte buffer (`to_rgba8().into_vec()`). -/
structure Image where
  width : Nat
  height : Nat
  data : List Nat
  deriving DecidableEq

/-- The `FloatingImage` struct of src/main.rs.  The `capacity` field
models `self.data.capacity()`: `Vec::with_capacity` is modelled as
reserving exactly the requested capacity. -/
structure FloatingImage where
  width : Nat
  height : Nat
  data : List Nat
  capacity : Nat
  name : String
  deriving DecidableEq

deriving instance DecidableEq for Except

/-- `FloatingImage::new` (src/main.rs lines 28-38).  `buffer_capacity`
is `height * width * 4` computed in `u32` arithmetic, hence reduced
modulo `2^32` (each intermediate `u32` product wraps, and
`((h * w) % m * 4) % m = h * w * 4 % m`); the `try_into().unwrap()`
conversion of a `u32` into a 64-bit `usize` always succeeds. -/
def FloatingImage.new (width height : Nat) (name : String) : FloatingImage :=
  let buffer_capacity := height * width * 4 % U32_MOD
  { width := width, height := height, data := [], capacity := buffer_capacity, name := name }

/-- `FloatingImage::set_data` (src/main.rs lines 41-48). -/
def FloatingImage.set_data (self : FloatingImage) (data : List Nat) :
    Except ImageDataErrors FloatingImage :=
  if data.length > self.capacity then
    Except.error ImageDataErrors.BufferTooSmall
  else
    Except.ok { self with data := data }

/-- `get_smallest_dimensions` (src/main.rs lines 107-114), faithful to
the source: `pix_2` is also computed from `dim_1` (line 110), and the
`u32` products wrap modulo `2^32`. -/
def get_smallest_dimensions (dim_1 dim_2 : Nat × Nat) : Nat × Nat :=
  let pix_1 := dim_1.1 * dim_1.2 % U32_MOD
  let pix_2 := dim_1.1 * dim_1.2 % U32_MOD
  if pix_1 < pix_2 then dim_1 else dim_2

/-- `standardize_size` (src/main.rs lines 117-131), parametrised by the
image crate's `resize_exact` routine (an external collaborator): the
branch whose condition holds applies `resize` to one image and passes
the other through. -/
def standardize_size (resize : Image → Nat → Nat → Image) (image_1 image_2 : Image) :
    Image × Image :=
  let wh := get_smallest_dimensions (image_1.width, image_1.height)
    (image_2.width, image_2.height)
  if (image_2.width, image_2.height) = wh then
    (resize image_1 wh.1 wh.2, image_2)
  else
    (image_1, resize image_2 wh.1 wh.2)

/-- `set_rgba` (src/main.rs lines 168-183): collects `vec[start..=stop]`
(the second index is named `end` in the source), panicking -- modelled
as `none` -- when an index is missing. -/
def set_rgba (vec : List Nat) (start stop : Nat) : Option (List Nat) :=
  if _h : start ≤ stop then
    match vec[start]? with
    | none => none
    | some v => Option.map (fun rgba => v :: rgba) (set_rgba vec (start + 1) stop)
  else
    some []
termination_by stop + 1 - start
decreasing_by omega

/-- `Vec::splice` over the inclusive range `start..=stop`, as used by
`alternate_pixels`: the range is removed and the replacement inserted in
its place.  Splice panics -- modelled as `none` -- when the range is
ill-formed or its end point exceeds the vector's length. -/
def vecSplice (l : List Nat) (start stop : Nat) (repl : List Nat) : Option (List Nat) :=
  if start ≤ stop + 1 ∧ stop + 1 ≤ l.length then
    some (l.take start ++ repl ++ l.drop (stop + 1))
  else
    none

/-- The while loop of `alternate_pixels` (src/main.rs lines 152-163):
`combined` is `combined_data` and `i` the byte offset, advancing by 4;
bytes come from `vec_1` when `i % 8 == 0` and from `vec_2` otherwise. -/
def alternateLoop (vec_1 vec_2 : List Nat) (combined : List Nat) (i : Nat) :
    Option (List Nat) :=
  if _h : i < vec_1.length then
    match (if i % 8 = 0 then set_rgba vec_1 i (i + 3) else set_rgba vec_2 i (i + 3)) with
    | none => none
    | some rgba =>
      match vecSplice combined i (i + 3) rgba with
      | none => none
      | some combined2 => alternateLoop vec_1 vec_2 combined2 (i + 4)
  else
    some combined
termination_by vec_1.length - i
decreasing_by omega

/-- `alternate_pixels` (src/main.rs lines 143-165): the output buffer
starts as `vec![0u8; vec_1.len()]` and is filled by the loop. -/
def alternate_pixels (vec_1 vec_2 : List Nat) : Option (List Nat) :=
  alternateLoop vec_1 vec_2 (List.replicate vec_1.length 0) 0

/-- `combine_images` (src/main.rs lines 134-141): `to_rgba8().into_vec()`
is the `data` field of the modelled `Image`. -/
def combine_images (image_1 image_2 : Image) : Option (List Nat) :=
  alternate_pixels image_1.data image_2.data

/-- The byte the interleaving is specified to place at byte offset `j`:
from `vec_1` when the pixel index `j / 4` is even, from `vec_2` when it
is odd. -/
def interleavedByte (vec_1 vec_2 : List Nat) (j : Nat) : Option Nat :=
  if j / 4 % 2 = 0 then vec_1[j]? else vec_2[j]?

/-- Observable pipeline steps, recorded by the pipeline model so that
theorems can state that a failure occurs before any resize, interleave
or save work is performed. -/
inductive PipelineEvent where
  | resizeStep
  | interleaveStep
  | saveStep
  deriving DecidableEq

/-- `main` (src/main.rs lines 52-79) from the point where both inputs
have been decoded, given the decoded images and their format tags
(formats are opaque `Nat` tags), parametrised by the external resize and
encode routines.  The first component is `none` when `alternate_pixels`
panics and otherwise `some` of the run's outcome; the second component
lists the performed pipeline steps in order. -/
def main_model (resize : Image → Nat → Nat → Image) (encode : FloatingImage → Nat → Bool)
    (image_1 : Image) (image_1_format : Nat) (image_2 : Image) (image_2_format : Nat)
    (outName : String) : Option (Except ImageDataErrors Unit) × List PipelineEvent :=
  if image_1_format ≠ image_2_format then
    (some (Except.error ImageDataErrors.DifferentImageFormats), [])
  else
    let p := standardize_size resize image_1 image_2
    let output := FloatingImage.new p.1.width p.1.height outName
    match combine_images p.1 p.2 with
    | none => (none, [PipelineEvent.resizeStep])
    | some combined_data =>
      match output.set_data combined_data with
      | Except.error e =>
        (some (Except.error e), [PipelineEvent.resizeStep, PipelineEvent.interleaveStep])
      | Except.ok output2 =>
        if encode output2 image_1_format then
          (some (Except.ok ()),
            [PipelineEvent.resizeStep, PipelineEvent.interleaveStep, PipelineEvent.saveStep])
        else
          (some (Except.error ImageDataErrors.UnableToSaveImage),
            [PipelineEvent.resizeStep, PipelineEvent.interleaveStep, PipelineEvent.saveStep])

/-! ## Helper lemmas -/

/-- The comparison in `get_smallest_dimensions` compares a value with
itself, so the function returns its second argument. -/
lemma gsd_eq_snd (dim_1 dim_2 : Nat × Nat) :
    get_smallest_dimensions dim_1 dim_2 = dim_2 := by
  unfold get_smallest_dimensions
  simp

/-- `set_rgba` on an in-bounds inclusive range collects exactly the
bytes of that range. -/
lemma set_rgba_spec (vec : List Nat) (stop : Nat) (hstop : stop < vec.length) :
    ∀ n start, stop + 1 - start ≤ n →
      set_rgba vec start stop = some ((vec.drop start).take (stop + 1 - start)) := by
  intro n
  induction n with
  | zero =>
    intro start hs
    have hgt : ¬ start ≤ stop := by omega
    have h0 : stop + 1 - start = 0 := by omega
    rw [set_rgba, dif_neg hgt, h0]
    simp
  | succ n ih =>
    intro start hs
    by_cases hss : start ≤ stop
    · have hlt : start < vec.length := by omega
      rw [set_rgba, dif_pos hss, List.getElem?_eq_getElem hlt,
        ih (start + 1) (by omega)]
      have h1 : stop + 1 - start = (stop + 1 - (start + 1)) + 1 := by omega
      rw [List.drop_eq_getElem_cons hlt, h1, List.take_succ_cons]
      rfl
    · have h0 : stop + 1 - start = 0 := by omega
      rw [set_rgba, dif_neg hss, h0]
      simp

/-- `set_rgba vec i (i + 3)` within bounds returns the four bytes at
offsets `i .. i + 3`. -/
lemma set_rgba_four (vec : List Nat) (i : Nat) (h : i + 4 ≤ vec.length) :
    ∃ rgba, set_rgba vec i (i + 3) = some rgba ∧ rgba.length = 4 ∧
      ∀ k, rgba[k]? = if k < 4 then vec[i + k]? else none := by
  have h4 : i + 3 + 1 - i = 4 := by omega
  refine ⟨(vec.drop i).take 4, ?_, ?_, ?_⟩
  · rw [set_rgba_spec vec (i + 3) (by omega) (i + 3 + 1 - i) i le_rfl, h4]
  · rw [List.length_take, List.length_drop]
    omega
  · intro k
    rw [List.getElem?_take]
    by_cases hk : k < 4
    · rw [if_pos hk, if_pos hk, List.getElem?_drop]
    · rw [if_neg hk, if_neg hk]

/-- Splicing four bytes over the in-bounds range `i ..= i + 3` keeps the
length and only rewrites the four positions of the range. -/
lemma vecSplice_spec (l : List Nat) (i : Nat) (repl : List Nat) (hr : repl.length = 4)
    (hi : i + 4 ≤ l.length) :
    ∃ l2, vecSplice l i (i + 3) repl = some l2 ∧ l2.length = l.length ∧
      ∀ j, l2[j]? = if j < i then l[j]?
        else if j < i + 4 then repl[j - i]? else l[j]? := by
  have hcond : i ≤ i + 3 + 1 ∧ i + 3 + 1 ≤ l.length := by omega
  refine ⟨l.take i ++ repl ++ l.drop (i + 3 + 1), ?_, ?_, ?_⟩
  · rw [vecSplice, if_pos hcond]
  · rw [List.length_append, List.length_append, List.length_take, List.length_drop, hr]
    omega
  · intro j
    have hti : (l.take i).length = i := by
      rw [List.length_take]
      omega
    rw [List.append_assoc, List.getElem?_append, hti]
    by_cases hj : j < i
    · rw [if_pos hj, if_pos hj, List.getElem?_take, if_pos hj]
    · rw [if_neg hj, if_neg hj, List.getElem?_append, hr]
      by_cases hj4 : j < i + 4
      · rw [if_pos (by omega), if_pos (by omega)]
      · rw [if_neg (by omega), if_neg (by omega), List.getElem?_drop]
        congr 1
        omega

/-- Loop invariant for `alternateLoop`: if the prefix below `i` of
`combined` already agrees with the interleaving and the bookkeeping
invariants hold, the loop completes and fills the whole buffer with the
interleaving of `vec_1` and `vec_2`. -/
lemma alternateLoop_spec (vec_1 vec_2 : List Nat) (hle : vec_1.length ≤ vec_2.length)
    (h4 : vec_1.length % 4 = 0) :
    ∀ n i combined, vec_1.length - i ≤ n → i % 4 = 0 → i ≤ vec_1.length →
      combined.length = vec_1.length →
      (∀ j, j < i → combined[j]? = interleavedByte vec_1 vec_2 j) →
      ∃ out, alternateLoop vec_1 vec_2 combined i = some out ∧
        out.length = vec_1.length ∧
        ∀ j, j < vec_1.length → out[j]? = interleavedByte vec_1 vec_2 j := by
  intro n
  induction n with
  | zero =>
    intro i c hn hi4 hile hc hinv
    have hi : ¬ i < vec_1.length := by omega
    rw [alternateLoop, dif_neg hi]
    exact ⟨c, rfl, hc, fun j hj => hinv j (by omega)⟩
  | succ n ih =>
    intro i c hn hi4 hile hc hinv
    by_cases hlt : i < vec_1.length
    · have h14 : i + 4 ≤ vec_1.length := by omega
      obtain ⟨rgba, hr, hrl, hrg⟩ :
          ∃ rgba,
            (if i % 8 = 0 then set_rgba vec_1 i (i + 3) else set_rgba vec_2 i (i + 3))
              = some rgba
            ∧ rgba.length = 4
            ∧ ∀ k, k < 4 → rgba[k]? = interleavedByte vec_1 vec_2 (i + k) := by
        by_cases h8 : i % 8 = 0
        · obtain ⟨rgba, h1, h2, h3⟩ := set_rgba_four vec_1 i h14
          refine ⟨rgba, by rw [if_pos h8, h1], h2, fun k hk => ?_⟩
          rw [h3 k, if_pos hk]
          unfold interleavedByte
          rw [if_pos (by omega)]
        · obtain ⟨rgba, h1, h2, h3⟩ := set_rgba_four vec_2 i (by omega)
          refine ⟨rgba, by rw [if_neg h8, h1], h2, fun k hk => ?_⟩
          rw [h3 k, if_pos hk]
          unfold interleavedByte
          rw [if_neg (by omega)]
      obtain ⟨c2, hs, hsl, hsg⟩ := vecSplice_spec c i rgba hrl (by omega)
      rw [alternateLoop, dif_pos hlt, hr]
      dsimp only
      rw [hs]
      dsimp only
      apply ih (i + 4) c2 (by omega) (by omega) (by omega) (hsl.trans hc)
      intro j hj
      rw [hsg j]
      by_cases hji : j < i
      · rw [if_pos hji]
        exact hinv j hji
      · rw [if_neg hji, if_pos (by omega)]
        have hk := hrg (j - i) (by omega)
        have hji' : i + (j - i) = j := by omega
        rw [hk, hji']
    · have hi : ¬ i < vec_1.length := hlt
      rw [alternateLoop, dif_neg hi]
      exact ⟨c, rfl, hc, fun j hj => hinv j (by omega)⟩

/-- Under the caller's invariants (`vec_1` no longer than `vec_2` and
`vec_1.length` a multiple of 4), `alternate_pixels` completes and its
output is the bytewise interleaving. -/
lemma alternate_pixels_spec (vec_1 vec_2 : List Nat) (hle : vec_1.length ≤ vec_2.length)
    (h4 : vec_1.length % 4 = 0) :
    ∃ out, alternate_pixels vec_1 vec_2 = some out ∧ out.length = vec_1.length ∧
      ∀ j, j < vec_1.length → out[j]? = interleavedByte vec_1 vec_2 j := by
  unfold alternate_pixels
  exact alternateLoop_spec vec_1 vec_2 hle h4 vec_1.length 0 _ (by omega) (by omega)
    (by omega) (by simp) (fun j hj => absurd hj (by omega))

/-! ## Claim theorems -/

/-- Claim C1: for equal-length byte vectors whose length is a multiple
of 4, `alternate_pixels` returns a vector of the same length, and pixel
`p` (bytes `4p .. 4p+3`) of the output equals pixel `p` of the first
input when `p` is even and of the second input when `p` is odd. -/
theorem claim_C1_interleave (vec_1 vec_2 : List Nat)
    (hlen : vec_1.length = vec_2.length) (h4 : vec_1.length % 4 = 0) :
    ∃ out, alternate_pixels vec_1 vec_2 = some out ∧ out.length = vec_1.length ∧
      ∀ p k, k < 4 → 4 * p + k < vec_1.length →
        out[4 * p + k]? = if p % 2 = 0 then vec_1[4 * p + k]? else vec_2[4 * p + k]? := by
  obtain ⟨out, h1, h2, h3⟩ := alternate_pixels_spec vec_1 vec_2 (le_of_eq hlen) h4
  refine ⟨out, h1, h2, fun p k hk hlt => ?_⟩
  have h5 := h3 (4 * p + k) hlt
  unfold interleavedByte at h5
  have hdiv : (4 * p + k) / 4 = p := by omega
  rw [hdiv] at h5
  exact h5

/-- Witness for claim C1 at two concrete 2-pixel buffers. -/
theorem claim_C1_witness :
    ([0, 1, 2, 3, 4, 5, 6, 7] : List Nat).length
        = ([10, 11, 12, 13, 14, 15, 16, 17] : List Nat).length ∧
    ([0, 1, 2, 3, 4, 5, 6, 7] : List Nat).length % 4 = 0 ∧
    ∃ out, alternate_pixels [0, 1, 2, 3, 4, 5, 6, 7] [10, 11, 12, 13, 14, 15, 16, 17]
        = some out ∧
      out.length = ([0, 1, 2, 3, 4, 5, 6, 7] : List Nat).length ∧
      ∀ p k, k < 4 → 4 * p + k < ([0, 1, 2, 3, 4, 5, 6, 7] : List Nat).length →
        out[4 * p + k]? =
          if p % 2 = 0 then ([0, 1, 2, 3, 4, 5, 6, 7] : List Nat)[4 * p + k]?
          else ([10, 11, 12, 13, 14, 15, 16, 17] : List Nat)[4 * p + k]? :=
  ⟨by decide, by decide, claim_C1_interleave _ _ (by decide) (by decide)⟩

/-- Claim C2 (code bug): at `dim_1 = (1,1)`, `dim_2 = (2,2)` the first
pair has the strictly smaller pixel count, yet `get_smallest_dimensions`
returns the second pair, contradicting its own documentation and the
spec's intended smaller-of-two-areas algorithm. -/
theorem claim_C2_failing_input :
    get_smallest_dimensions (1, 1) (2, 2) = (2, 2) ∧ 1 * 1 < 2 * 2 := by decide

/-- Claim C3: `get_smallest_dimensions` returns its second argument for
every pair of inputs, because both compared pixel counts are computed
from the first pair and the strict comparison is never true. -/
theorem claim_C3_always_second (dim_1 dim_2 : Nat × Nat) :
    get_smallest_dimensions dim_1 dim_2 = dim_2 :=
  gsd_eq_snd dim_1 dim_2

/-- Claim C4 counterexample: at `width = height = 65536` the capacity is
computed in wrapping u32 arithmetic as 0, so `set_data` rejects a
1-byte vector even though its length does not exceed the mathematical
product `width * height * 4 = 2^34`. -/
theorem claim_C4_counterexample :
    ¬ (FloatingImage.set_data (FloatingImage.new 65536 65536 "out") [0]
          = Except.error ImageDataErrors.BufferTooSmall
        ↔ ([0] : List Nat).length > 65536 * 65536 * 4) := by decide

/-- Claim C4 as amended: `set_data` on a freshly created image fails
with `BufferTooSmall` exactly when the data's length exceeds
`width * height * 4` computed in wrap-around u32 arithmetic (reduced
modulo `2^32`), and otherwise succeeds, storing the passed-in vector
byte for byte. -/
theorem claim_C4_amended (width height : Nat) (name : String) (data : List Nat) :
    FloatingImage.set_data (FloatingImage.new width height name) data =
      if data.length > width * height * 4 % U32_MOD then
        Except.error ImageDataErrors.BufferTooSmall
      else
        Except.ok
          { width := width, height := height, data := data,
            capacity := width * height * 4 % U32_MOD, name := name } := by
  simp only [FloatingImage.new, FloatingImage.set_data, Nat.mul_comm height width]

/-- Claim C5: whenever the two decoded format tags differ, the pipeline
stops with `DifferentImageFormats`: the result holds for every resize
and encode collaborator, and the recorded step trace is empty, so no
resize, interleave or save work is performed and no output produced. -/
theorem claim_C5_format_mismatch (resize : Image → Nat → Nat → Image)
    (encode : FloatingImage → Nat → Bool) (image_1 : Image) (image_1_format : Nat)
    (image_2 : Image) (image_2_format : Nat) (outName : String)
    (hfmt : image_1_format ≠ image_2_format) :
    main_model resize encode image_1 image_1_format image_2 image_2_format outName =
      (some (Except.error ImageDataErrors.DifferentImageFormats), []) := by
  unfold main_model
  rw [if_pos hfmt]

/-- Witness for claim C5 at concrete images with distinct format tags. -/
theorem claim_C5_witness :
    (0 : Nat) ≠ 1 ∧
    main_model (fun image _ _ => image) (fun _ _ => true)
        (Image.mk 1 1 [0, 0, 0, 0]) 0 (Image.mk 1 1 [1, 1, 1, 1]) 1 "out" =
      (some (Except.error ImageDataErrors.DifferentImageFormats), []) :=
  ⟨by decide, claim_C5_format_mismatch _ _ _ _ _ _ _ (by decide)⟩

/-- Claim C6 counterexample: with two images of identical dimensions the
reconciled target equals the first image's dimensions, yet
`standardize_size` still hands the first image to the resize routine,
so the first image is not passed through unchanged. -/
theorem claim_C6_counterexample :
    get_smallest_dimensions (1, 1) (1, 1) = (1, 1) ∧
    (standardize_size (fun _ w h => Image.mk w h [])
        (Image.mk 1 1 [0, 0, 0, 0]) (Image.mk 1 1 [0, 0, 0, 0])).1
      ≠ Image.mk 1 1 [0, 0, 0, 0] := by decide

/-- Claim C6 as amended: `standardize_size` always applies the resize
routine to the first image with the target dimensions (which are always
the second image's dimensions) -- even when the first image's dimensions
already equal the target -- and always passes the second image through
unchanged. -/
theorem claim_C6_amended (resize : Image → Nat → Nat → Image) (image_1 image_2 : Image) :
    standardize_size resize image_1 image_2 =
      (resize image_1 image_2.width image_2.height, image_2) := by
  unfold standardize_size
  rw [gsd_eq_snd]
  simp

/-- Claim C7: under the precondition that the inputs have equal length
which is a multiple of 4, `alternate_pixels` never reaches the panic
branch of `set_rgba` nor an out-of-bounds splice: it totally computes
some output. -/
theorem claim_C7_no_panic (vec_1 vec_2 : List Nat)
    (hlen : vec_1.length = vec_2.length) (h4 : vec_1.length % 4 = 0) :
    (alternate_pixels vec_1 vec_2).isSome := by
  obtain ⟨out, h1, -, -⟩ := alternate_pixels_spec vec_1 vec_2 (le_of_eq hlen) h4
  rw [h1]
  rfl

/-- Witness for claim C7 at two concrete 1-pixel buffers. -/
theorem claim_C7_witness :
    ([0, 0, 0, 0] : List Nat).length = ([9, 9, 9, 9] : List Nat).length ∧
    ([0, 0, 0, 0] : List Nat).length % 4 = 0 ∧
    (alternate_pixels [0, 0, 0, 0] [9, 9, 9, 9]).isSome :=
  ⟨by decide, by decide, claim_C7_no_panic _ _ (by decide) (by decide)⟩

/-- Claim C8: `get_smallest_dimensions` is deterministic -- it is a pure
function of its two arguments, so identical arguments always produce
identical results. -/
theorem claim_C8_deterministic (dim_1 dim_2 dim_1' dim_2' : Nat × Nat)
    (h1 : dim_1 = dim_1') (h2 : dim_2 = dim_2') :
    get_smallest_dimensions dim_1 dim_2 = get_smallest_dimensions dim_1' dim_2' := by
  rw [h1, h2]

/-- Witness for claim C8 at concrete dimension pairs. -/
theorem claim_C8_witness :
    ((3, 4) : Nat × Nat) = (3, 4) ∧ ((5, 6) : Nat × Nat) = (5, 6) ∧
    get_smallest_dimensions (3, 4) (5, 6) = get_smallest_dimensions (3, 4) (5, 6) :=
  ⟨rfl, rfl, claim_C8_deterministic (3, 4) (5, 6) (3, 4) (5, 6) rfl rfl⟩

/-- Claim C9: the reserved capacity of `FloatingImage.new` is
`width * height * 4` reduced modulo `2^32` (u32 wrap-around); at
`width = height = 65536` the wrapped capacity is 0, strictly smaller
than the mathematical byte size `2^34`; and the `set_data` comparison is
made against this wrapped value. -/
theorem claim_C9_capacity_wraps :
    (∀ width height name,
      (FloatingImage.new width height name).capacity = width * height * 4 % U32_MOD)
    ∧ (FloatingImage.new 65536 65536 "out").capacity = 0
    ∧ 65536 * 65536 * 4 % U32_MOD < 65536 * 65536 * 4
    ∧ ∀ width height name data,
        (FloatingImage.set_data (FloatingImage.new width height name) data
          = Except.error ImageDataErrors.BufferTooSmall)
        ↔ data.length > width * height * 4 % U32_MOD := by
  refine ⟨?_, by decide, by decide, ?_⟩
  · intro width height name
    simp only [FloatingImage.new, Nat.mul_comm height width]
  · intro width height name data
    simp only [FloatingImage.new, FloatingImage.set_data, Nat.mul_comm height width]
    by_cases hd : data.length > width * height * 4 % U32_MOD
    · simp [hd]
    · simp [hd]

/-- Claim C10: the output length of `alternate_pixels` is determined by
the first input alone (when the second is at least as long and the first
has length a multiple of 4), and bytes of the second input at offsets
beyond the first input's length have no effect on the output. -/
theorem claim_C10_first_input_determines (vec_1 vec_2 vec_2' : List Nat)
    (h4 : vec_1.length % 4 = 0) (h2 : vec_1.length ≤ vec_2.length)
    (h2' : vec_1.length ≤ vec_2'.length)
    (hagree : ∀ j, j < vec_1.length → vec_2[j]? = vec_2'[j]?) :
    ∃ out, alternate_pixels vec_1 vec_2 = some out ∧ out.length = vec_1.length ∧
      alternate_pixels vec_1 vec_2' = some out := by
  obtain ⟨out, h1, hl, hp⟩ := alternate_pixels_spec vec_1 vec_2 h2 h4
  obtain ⟨out', h1', hl', hp'⟩ := alternate_pixels_spec vec_1 vec_2' h2' h4
  have heq : out' = out := by
    apply List.ext_getElem?
    intro j
    by_cases hj : j < vec_1.length
    · rw [hp' j hj, hp j hj]
      unfold interleavedByte
      by_cases hd : j / 4 % 2 = 0
      · rw [if_pos hd, if_pos hd]
      · rw [if_neg hd, if_neg hd]
        exact (hagree j hj).symm
    · rw [List.getElem?_eq_none (by omega), List.getElem?_eq_none (by omega)]
  rw [heq] at h1'
  exact ⟨out, h1, hl, h1'⟩

/-- Witness for claim C10: a longer second input with an extra trailing
byte produces the same output as its 8-byte truncation. -/
theorem claim_C10_witness :
    ([0, 1, 2, 3, 4, 5, 6, 7] : List Nat).length % 4 = 0 ∧
    ([0, 1, 2, 3, 4, 5, 6, 7] : List Nat).length
        ≤ ([10, 11, 12, 13, 14, 15, 16, 17, 99] : List Nat).length ∧
    ([0, 1, 2, 3, 4, 5, 6, 7] : List Nat).length
        ≤ ([10, 11, 12, 13, 14, 15, 16, 17] : List Nat).length ∧
    ∃ out, alternate_pixels [0, 1, 2, 3, 4, 5, 6, 7] [10, 11, 12, 13, 14, 15, 16, 17, 99]
        = some out ∧
      out.length = ([0, 1, 2, 3, 4, 5, 6, 7] : List Nat).length ∧
      alternate_pixels [0, 1, 2, 3, 4, 5, 6, 7] [10, 11, 12, 13, 14, 15, 16, 17] = some out :=
  ⟨by decide, by decide, by decide,
    claim_C10_first_input_determines _ _ _ (by decide) (by decide) (by decide) (by decide)⟩
